import Mathlib

/-!
Shallow embedding of the DTLS extension codec (`src/dtls/src/extension.rs` and the
per-type payload codecs) and proofs of the specified properties.

A byte stream (the `Read`/`Write` cursor of the Rust code) is a `List Nat` of byte
values; a reading operation is a state-passing function returning the outcome
together with the remaining stream, so that the position of the reader after a
failure is observable. A writer never fails (the Rust callers write into growable
buffers), so marshalling is a pure function to the list of bytes written.
-/

/-- Error outcomes of the codec: `ERR_INVALID_EXTENSION_TYPE`, the
`FromUtf8Error` raised by `String::from_utf8`, and the short-read I/O error of the
underlying reader. -/
inductive Err where
  | invalidExtensionType
  | invalidUtf8
  | shortRead
deriving DecidableEq

/-- A byte stream: each element is one byte value. -/
abbrev Bytes := List Nat

/-- `writer.write_u16::<BigEndian>(v)`: the two big-endian bytes of `v`
(`v` is a `u16`, hence reduced mod 2^16 componentwise). -/
def writeU16 (v : Nat) : Bytes := [v / 256 % 256, v % 256]

/-- `reader.read_u16::<BigEndian>()`: consume two bytes and combine them
big-endian; fail with a short read when fewer than two bytes remain. -/
def readU16 : Bytes → Except Err Nat × Bytes
  | a :: b :: rest => (Except.ok (a * 256 + b), rest)
  | s => (Except.error Err.shortRead, s)

/-- `reader.read_exact(&mut buf)` for a buffer of `n` bytes: consume exactly `n`
bytes or fail with a short read. -/
def readExact (n : Nat) (s : Bytes) : Except Err Bytes × Bytes :=
  if n ≤ s.length then (Except.ok (s.take n), s.drop n)
  else (Except.error Err.shortRead, s)

/-- Is `lo ≤ b < hi`? Byte-range test used by the UTF-8 validity check. -/
def inRange (lo hi b : Nat) : Bool := decide (lo ≤ b) && decide (b < hi)

/-- Is `b` a UTF-8 continuation byte (`0x80..=0xBF`)? -/
def isCont (b : Nat) : Bool := inRange 128 192 b

/-- The validity check performed by `String::from_utf8` (RFC 3629 well-formedness:
lead-byte ranges, continuation bytes, no overlong forms, no surrogates, maximum
scalar value U+10FFFF). -/
def validUtf8 : Bytes → Bool
  | [] => true
  | b :: rest =>
    if b < 128 then validUtf8 rest
    else if b < 194 then false
    else if b < 224 then
      match rest with
      | c1 :: r => isCont c1 && validUtf8 r
      | [] => false
    else if b < 240 then
      match rest with
      | c1 :: c2 :: r =>
          (if b = 224 then inRange 160 192 c1
           else if b = 237 then inRange 128 160 c1
           else isCont c1) && isCont c2 && validUtf8 r
      | _ => false
    else if b < 245 then
      match rest with
      | c1 :: c2 :: c3 :: r =>
          (if b = 240 then inRange 144 192 c1
           else if b = 244 then inRange 128 144 c1
           else isCont c1) && isCont c2 && isCont c3 && validUtf8 r
      | _ => false
    else false

example : validUtf8 [101, 120, 97] = true := by decide
example : validUtf8 [255] = false := by decide

/-- `ExtensionValue` (`extension.rs`): the registry enumeration, one variant per
recognized 16-bit tag plus the `Unsupported` catch-all. -/
inductive ExtensionValue where
  | serverName
  | supportedEllipticCurves
  | supportedPointFormats
  | supportedSignatureAlgorithms
  | useSRTP
  | useExtendedMasterSecret
  | unsupported
deriving DecidableEq

/-- The Rust enum discriminants of `ExtensionValue` (`ServerName = 0`, …,
`UseExtendedMasterSecret = 23`, with `Unsupported` taking the next value, 24):
`extension_value() as u16` in `Extension::marshal`. -/
def ExtensionValue.toTag : ExtensionValue → Nat
  | .serverName => 0
  | .supportedEllipticCurves => 10
  | .supportedPointFormats => 11
  | .supportedSignatureAlgorithms => 13
  | .useSRTP => 14
  | .useExtendedMasterSecret => 23
  | .unsupported => 24

/-- `impl From<u16> for ExtensionValue` (`extension.rs`): the registry lookup,
total over all tag values. -/
def ExtensionValue.fromU16 (val : Nat) : ExtensionValue :=
  if val = 0 then .serverName
  else if val = 10 then .supportedEllipticCurves
  else if val = 11 then .supportedPointFormats
  else if val = 13 then .supportedSignatureAlgorithms
  else if val = 14 then .useSRTP
  else if val = 23 then .useExtendedMasterSecret
  else .unsupported

/-- `ExtensionServerName` (`extension_server_name.rs`): holds the `server_name`
`String`, represented by its UTF-8 bytes. -/
structure ExtensionServerName where
  server_name : Bytes
deriving DecidableEq

/-- `ExtensionServerName::marshal`: write the name's byte-length as a `u16`
(the `as u16` cast truncates mod 2^16) then the name bytes. -/
def ExtensionServerName.marshal (e : ExtensionServerName) : Bytes :=
  writeU16 (e.server_name.length % 65536) ++ e.server_name

/-- `ExtensionServerName::unmarshal`: read a 2-byte length, read exactly that
many bytes, then decode them via `String::from_utf8`. -/
def ExtensionServerName.unmarshal (s : Bytes) : Except Err ExtensionServerName × Bytes :=
  match readU16 s with
  | (Except.ok bufLen, s1) =>
    match readExact bufLen s1 with
    | (Except.ok buf, s2) =>
        if validUtf8 buf then (Except.ok ⟨buf⟩, s2)
        else (Except.error Err.invalidUtf8, s2)
    | (Except.error e, s2) => (Except.error e, s2)
  | (Except.error e, s1) => (Except.error e, s1)

/-- `ExtensionUseExtendedMasterSecret` (`extension_use_extended_master_secret.rs`). -/
structure ExtensionUseExtendedMasterSecret where
  supported : Bool
deriving DecidableEq

/-- `ExtensionUseExtendedMasterSecret::marshal`: write the length field 0;
the `supported` flag is not examined. -/
def ExtensionUseExtendedMasterSecret.marshal
    (_e : ExtensionUseExtendedMasterSecret) : Bytes :=
  writeU16 0

/-- `ExtensionUseExtendedMasterSecret::unmarshal`: read and discard the 2-byte
length field, then return `supported: true` unconditionally. -/
def ExtensionUseExtendedMasterSecret.unmarshal (s : Bytes) :
    Except Err ExtensionUseExtendedMasterSecret × Bytes :=
  match readU16 s with
  | (Except.ok _, s1) => (Except.ok ⟨true⟩, s1)
  | (Except.error e, s1) => (Except.error e, s1)

/-- Modelled from the spec: the source file of the `ExtensionSupportedEllipticCurves`
codec is not among the provided files; §4.3 of the spec says these codecs follow the
same 16-bit-length-prefixed convention as the shown ones, so the payload is modelled
as a 16-bit length field followed by that many payload bytes. -/
structure ExtensionSupportedEllipticCurves where
  data : Bytes
deriving DecidableEq

/-- Modelled from the spec: `ExtensionSupportedPointFormats`, source not provided;
payload modelled as a 16-bit length field followed by that many payload bytes. -/
structure ExtensionSupportedPointFormats where
  data : Bytes
deriving DecidableEq

/-- Modelled from the spec: `ExtensionSupportedSignatureAlgorithms`, source not
provided; payload modelled as a 16-bit length field followed by that many payload
bytes. -/
structure ExtensionSupportedSignatureAlgorithms where
  data : Bytes
deriving DecidableEq

/-- Modelled from the spec: `ExtensionUseSRTP`, source not provided; payload
modelled as a 16-bit length field followed by that many payload bytes. -/
structure ExtensionUseSRTP where
  data : Bytes
deriving DecidableEq

/-- Modelled from the spec: marshalling of a length-prefixed payload, following the
convention of `ExtensionServerName::marshal` (§4.3: "same"). -/
def lenPrefixedMarshal (data : Bytes) : Bytes :=
  writeU16 (data.length % 65536) ++ data

/-- Modelled from the spec: unmarshalling of a length-prefixed payload — read the
2-byte length field, then exactly that many payload bytes. -/
def lenPrefixedUnmarshal (s : Bytes) : Except Err Bytes × Bytes :=
  match readU16 s with
  | (Except.ok bufLen, s1) =>
    match readExact bufLen s1 with
    | (Except.ok buf, s2) => (Except.ok buf, s2)
    | (Except.error e, s2) => (Except.error e, s2)
  | (Except.error e, s1) => (Except.error e, s1)

def ExtensionSupportedEllipticCurves.marshal (e : ExtensionSupportedEllipticCurves) : Bytes :=
  lenPrefixedMarshal e.data

def ExtensionSupportedEllipticCurves.unmarshal (s : Bytes) :
    Except Err ExtensionSupportedEllipticCurves × Bytes :=
  match lenPrefixedUnmarshal s with
  | (Except.ok buf, s1) => (Except.ok ⟨buf⟩, s1)
  | (Except.error e, s1) => (Except.error e, s1)

def ExtensionSupportedPointFormats.marshal (e : ExtensionSupportedPointFormats) : Bytes :=
  lenPrefixedMarshal e.data

def ExtensionSupportedPointFormats.unmarshal (s : Bytes) :
    Except Err ExtensionSupportedPointFormats × Bytes :=
  match lenPrefixedUnmarshal s with
  | (Except.ok buf, s1) => (Except.ok ⟨buf⟩, s1)
  | (Except.error e, s1) => (Except.error e, s1)

def ExtensionSupportedSignatureAlgorithms.marshal
    (e : ExtensionSupportedSignatureAlgorithms) : Bytes :=
  lenPrefixedMarshal e.data

def ExtensionSupportedSignatureAlgorithms.unmarshal (s : Bytes) :
    Except Err ExtensionSupportedSignatureAlgorithms × Bytes :=
  match lenPrefixedUnmarshal s with
  | (Except.ok buf, s1) => (Except.ok ⟨buf⟩, s1)
  | (Except.error e, s1) => (Except.error e, s1)

def ExtensionUseSRTP.marshal (e : ExtensionUseSRTP) : Bytes :=
  lenPrefixedMarshal e.data

def ExtensionUseSRTP.unmarshal (s : Bytes) :
    Except Err ExtensionUseSRTP × Bytes :=
  match lenPrefixedUnmarshal s with
  | (Except.ok buf, s1) => (Except.ok ⟨buf⟩, s1)
  | (Except.error e, s1) => (Except.error e, s1)

/-- `Extension` (`extension.rs`): the tagged union over the six payload types. -/
inductive Extension where
  | serverName (ext : ExtensionServerName)
  | supportedEllipticCurves (ext : ExtensionSupportedEllipticCurves)
  | supportedPointFormats (ext : ExtensionSupportedPointFormats)
  | supportedSignatureAlgorithms (ext : ExtensionSupportedSignatureAlgorithms)
  | useSRTP (ext : ExtensionUseSRTP)
  | useExtendedMasterSecret (ext : ExtensionUseExtendedMasterSecret)
deriving DecidableEq

/-- `Extension::extension_value`: the identity of the held variant (each payload's
`extension_value()` returns its own fixed identity). -/
def Extension.extension_value : Extension → ExtensionValue
  | .serverName _ => .serverName
  | .supportedEllipticCurves _ => .supportedEllipticCurves
  | .supportedPointFormats _ => .supportedPointFormats
  | .supportedSignatureAlgorithms _ => .supportedSignatureAlgorithms
  | .useSRTP _ => .useSRTP
  | .useExtendedMasterSecret _ => .useExtendedMasterSecret

/-- `Extension::marshal`: write the 16-bit wire tag (`extension_value() as u16`),
then delegate to the held payload's marshal. -/
def Extension.marshal (e : Extension) : Bytes :=
  writeU16 e.extension_value.toTag ++
    match e with
    | .serverName ext => ext.marshal
    | .supportedEllipticCurves ext => ext.marshal
    | .supportedPointFormats ext => ext.marshal
    | .supportedSignatureAlgorithms ext => ext.marshal
    | .useSRTP ext => ext.marshal
    | .useExtendedMasterSecret ext => ext.marshal

/-- `Extension::unmarshal`: read the 16-bit tag, resolve it through the registry,
delegate to the matching codec, and fail with `ERR_INVALID_EXTENSION_TYPE` on an
unsupported tag (leaving the reader just past the tag). -/
def Extension.unmarshal (s : Bytes) : Except Err Extension × Bytes :=
  match readU16 s with
  | (Except.ok v, s1) =>
    match ExtensionValue.fromU16 v with
    | .serverName =>
      match ExtensionServerName.unmarshal s1 with
      | (Except.ok e, s2) => (Except.ok (Extension.serverName e), s2)
      | (Except.error err, s2) => (Except.error err, s2)
    | .supportedEllipticCurves =>
      match ExtensionSupportedEllipticCurves.unmarshal s1 with
      | (Except.ok e, s2) => (Except.ok (Extension.supportedEllipticCurves e), s2)
      | (Except.error err, s2) => (Except.error err, s2)
    | .supportedPointFormats =>
      match ExtensionSupportedPointFormats.unmarshal s1 with
      | (Except.ok e, s2) => (Except.ok (Extension.supportedPointFormats e), s2)
      | (Except.error err, s2) => (Except.error err, s2)
    | .supportedSignatureAlgorithms =>
      match ExtensionSupportedSignatureAlgorithms.unmarshal s1 with
      | (Except.ok e, s2) => (Except.ok (Extension.supportedSignatureAlgorithms e), s2)
      | (Except.error err, s2) => (Except.error err, s2)
    | .useSRTP =>
      match ExtensionUseSRTP.unmarshal s1 with
      | (Except.ok e, s2) => (Except.ok (Extension.useSRTP e), s2)
      | (Except.error err, s2) => (Except.error err, s2)
    | .useExtendedMasterSecret =>
      match ExtensionUseExtendedMasterSecret.unmarshal s1 with
      | (Except.ok e, s2) => (Except.ok (Extension.useExtendedMasterSecret e), s2)
      | (Except.error err, s2) => (Except.error err, s2)
    | .unsupported => (Except.error Err.invalidExtensionType, s1)
  | (Except.error e, s1) => (Except.error e, s1)

example :
    Extension.unmarshal [0, 23, 0, 0]
      = (Except.ok (Extension.useExtendedMasterSecret ⟨true⟩), []) := rfl

example :
    Extension.unmarshal [255, 255, 0, 0]
      = (Except.error Err.invalidExtensionType, [0, 0]) := rfl

example :
    Extension.marshal (Extension.serverName ⟨[101, 120]⟩) = [0, 0, 0, 2, 101, 120] := by
  decide


/-! ### Helper lemmas -/

theorem readU16_writeU16 (n : Nat) (h : n < 65536) (rest : Bytes) :
    readU16 (writeU16 n ++ rest) = (Except.ok n, rest) := by
  simp only [writeU16, List.cons_append, List.nil_append, readU16]
  have : n / 256 % 256 * 256 + n % 256 = n := by omega
  rw [this]

theorem readExact_append (buf rest : Bytes) :
    readExact buf.length (buf ++ rest) = (Except.ok buf, rest) := by
  simp [readExact, List.take_left, List.drop_left]

theorem serverName_unmarshal_append (name rest : Bytes) (h : name.length < 65536) :
    ExtensionServerName.unmarshal (writeU16 name.length ++ (name ++ rest)) =
      if validUtf8 name then (Except.ok ⟨name⟩, rest)
      else (Except.error Err.invalidUtf8, rest) := by
  rw [ExtensionServerName.unmarshal, readU16_writeU16 name.length h]
  simp only [readExact_append]

theorem uems_unmarshal_cons (a b : Nat) (rest : Bytes) :
    ExtensionUseExtendedMasterSecret.unmarshal (a :: b :: rest) =
      (Except.ok ⟨true⟩, rest) := rfl

theorem lenPrefixed_unmarshal_append (data rest : Bytes) (h : data.length < 65536) :
    lenPrefixedUnmarshal (writeU16 data.length ++ (data ++ rest)) =
      (Except.ok data, rest) := by
  rw [lenPrefixedUnmarshal, readU16_writeU16 data.length h]
  simp only [readExact_append]

theorem extension_unmarshal_tag0 (rest : Bytes) :
    Extension.unmarshal (0 :: 0 :: rest) =
      ((ExtensionServerName.unmarshal rest).1.map Extension.serverName,
       (ExtensionServerName.unmarshal rest).2) := by
  rw [Extension.unmarshal]
  simp only [readU16, ExtensionValue.fromU16]
  norm_num
  rcases ExtensionServerName.unmarshal rest with ⟨out, s2⟩
  cases out <;> simp [Except.map]

theorem extension_unmarshal_tag10 (rest : Bytes) :
    Extension.unmarshal (0 :: 10 :: rest) =
      ((ExtensionSupportedEllipticCurves.unmarshal rest).1.map Extension.supportedEllipticCurves,
       (ExtensionSupportedEllipticCurves.unmarshal rest).2) := by
  rw [Extension.unmarshal]
  simp only [readU16, ExtensionValue.fromU16]
  norm_num
  rcases ExtensionSupportedEllipticCurves.unmarshal rest with ⟨out, s2⟩
  cases out <;> simp [Except.map]

theorem extension_unmarshal_tag11 (rest : Bytes) :
    Extension.unmarshal (0 :: 11 :: rest) =
      ((ExtensionSupportedPointFormats.unmarshal rest).1.map Extension.supportedPointFormats,
       (ExtensionSupportedPointFormats.unmarshal rest).2) := by
  rw [Extension.unmarshal]
  simp only [readU16, ExtensionValue.fromU16]
  norm_num
  rcases ExtensionSupportedPointFormats.unmarshal rest with ⟨out, s2⟩
  cases out <;> simp [Except.map]

theorem extension_unmarshal_tag13 (rest : Bytes) :
    Extension.unmarshal (0 :: 13 :: rest) =
      ((ExtensionSupportedSignatureAlgorithms.unmarshal rest).1.map
          Extension.supportedSignatureAlgorithms,
       (ExtensionSupportedSignatureAlgorithms.unmarshal rest).2) := by
  rw [Extension.unmarshal]
  simp only [readU16, ExtensionValue.fromU16]
  norm_num
  rcases ExtensionSupportedSignatureAlgorithms.unmarshal rest with ⟨out, s2⟩
  cases out <;> simp [Except.map]

theorem extension_unmarshal_tag14 (rest : Bytes) :
    Extension.unmarshal (0 :: 14 :: rest) =
      ((ExtensionUseSRTP.unmarshal rest).1.map Extension.useSRTP,
       (ExtensionUseSRTP.unmarshal rest).2) := by
  rw [Extension.unmarshal]
  simp only [readU16, ExtensionValue.fromU16]
  norm_num
  rcases ExtensionUseSRTP.unmarshal rest with ⟨out, s2⟩
  cases out <;> simp [Except.map]

theorem extension_unmarshal_tag23 (rest : Bytes) :
    Extension.unmarshal (0 :: 23 :: rest) =
      ((ExtensionUseExtendedMasterSecret.unmarshal rest).1.map Extension.useExtendedMasterSecret,
       (ExtensionUseExtendedMasterSecret.unmarshal rest).2) := by
  rw [Extension.unmarshal]
  simp only [readU16, ExtensionValue.fromU16]
  norm_num
  rcases ExtensionUseExtendedMasterSecret.unmarshal rest with ⟨out, s2⟩
  cases out <;> simp [Except.map]

theorem serverName_roundtrip (e : ExtensionServerName)
    (h1 : validUtf8 e.server_name = true) (h2 : e.server_name.length < 65536) :
    ExtensionServerName.unmarshal (ExtensionServerName.marshal e) =
      (Except.ok e, []) := by
  have h := serverName_unmarshal_append e.server_name [] h2
  rw [List.append_nil] at h
  rw [ExtensionServerName.marshal, Nat.mod_eq_of_lt h2, h, if_pos h1]

theorem lenPrefixed_roundtrip (data : Bytes) (h : data.length < 65536) :
    lenPrefixedUnmarshal (lenPrefixedMarshal data) = (Except.ok data, []) := by
  have hh := lenPrefixed_unmarshal_append data [] h
  rw [List.append_nil] at hh
  rw [lenPrefixedMarshal, Nat.mod_eq_of_lt h, hh]

theorem supportedEllipticCurves_roundtrip (e : ExtensionSupportedEllipticCurves)
    (h : e.data.length < 65536) :
    ExtensionSupportedEllipticCurves.unmarshal (ExtensionSupportedEllipticCurves.marshal e)
      = (Except.ok e, []) := by
  rw [ExtensionSupportedEllipticCurves.unmarshal, ExtensionSupportedEllipticCurves.marshal,
    lenPrefixed_roundtrip e.data h]

theorem supportedPointFormats_roundtrip (e : ExtensionSupportedPointFormats)
    (h : e.data.length < 65536) :
    ExtensionSupportedPointFormats.unmarshal (ExtensionSupportedPointFormats.marshal e)
      = (Except.ok e, []) := by
  rw [ExtensionSupportedPointFormats.unmarshal, ExtensionSupportedPointFormats.marshal,
    lenPrefixed_roundtrip e.data h]

theorem supportedSignatureAlgorithms_roundtrip (e : ExtensionSupportedSignatureAlgorithms)
    (h : e.data.length < 65536) :
    ExtensionSupportedSignatureAlgorithms.unmarshal
        (ExtensionSupportedSignatureAlgorithms.marshal e)
      = (Except.ok e, []) := by
  rw [ExtensionSupportedSignatureAlgorithms.unmarshal,
    ExtensionSupportedSignatureAlgorithms.marshal, lenPrefixed_roundtrip e.data h]

theorem useSRTP_roundtrip (e : ExtensionUseSRTP) (h : e.data.length < 65536) :
    ExtensionUseSRTP.unmarshal (ExtensionUseSRTP.marshal e) = (Except.ok e, []) := by
  rw [ExtensionUseSRTP.unmarshal, ExtensionUseSRTP.marshal, lenPrefixed_roundtrip e.data h]

/-! ### Claim theorems -/

/-- Claim C1, counterexample: the round-trip claim fails as stated. Marshalling
the constructible value `ExtensionUseExtendedMasterSecret { supported: false }`
and unmarshalling the bytes yields `supported: true`, not the original value. -/
theorem extension_roundtrip_counterexample :
    Extension.unmarshal
        (Extension.marshal (Extension.useExtendedMasterSecret ⟨false⟩))
      = (Except.ok (Extension.useExtendedMasterSecret ⟨true⟩), [])
    ∧ ExtensionUseExtendedMasterSecret.mk true ≠ ⟨false⟩ :=
  ⟨rfl, by decide⟩

/-- Claim C1, amended: marshalling then unmarshalling an `Extension` value
reproduces it (consuming the whole encoding), provided the variable-length
payload field is shorter than 2^16 bytes (the `as u16` length cast truncates
beyond that), the server name's bytes are valid UTF-8 (automatic for a Rust
`String`), and the `UseExtendedMasterSecret` payload has `supported = true`
(decoding always yields `true`, so `supported = false` does not round-trip). -/
theorem extension_roundtrip (v : Extension)
    (h : match v with
      | .serverName e => validUtf8 e.server_name = true ∧ e.server_name.length < 65536
      | .supportedEllipticCurves e => e.data.length < 65536
      | .supportedPointFormats e => e.data.length < 65536
      | .supportedSignatureAlgorithms e => e.data.length < 65536
      | .useSRTP e => e.data.length < 65536
      | .useExtendedMasterSecret e => e.supported = true) :
    Extension.unmarshal (Extension.marshal v) = (Except.ok v, []) := by
  cases v with
  | serverName e =>
      obtain ⟨h1, h2⟩ := h
      have hm : Extension.marshal (Extension.serverName e)
          = 0 :: 0 :: ExtensionServerName.marshal e := by
        simp [Extension.marshal, Extension.extension_value, ExtensionValue.toTag, writeU16]
      rw [hm, extension_unmarshal_tag0, serverName_roundtrip e h1 h2]
      rfl
  | supportedEllipticCurves e =>
      have hm : Extension.marshal (Extension.supportedEllipticCurves e)
          = 0 :: 10 :: ExtensionSupportedEllipticCurves.marshal e := by
        simp [Extension.marshal, Extension.extension_value, ExtensionValue.toTag, writeU16]
      rw [hm, extension_unmarshal_tag10, supportedEllipticCurves_roundtrip e h]
      rfl
  | supportedPointFormats e =>
      have hm : Extension.marshal (Extension.supportedPointFormats e)
          = 0 :: 11 :: ExtensionSupportedPointFormats.marshal e := by
        simp [Extension.marshal, Extension.extension_value, ExtensionValue.toTag, writeU16]
      rw [hm, extension_unmarshal_tag11, supportedPointFormats_roundtrip e h]
      rfl
  | supportedSignatureAlgorithms e =>
      have hm : Extension.marshal (Extension.supportedSignatureAlgorithms e)
          = 0 :: 13 :: ExtensionSupportedSignatureAlgorithms.marshal e := by
        simp [Extension.marshal, Extension.extension_value, ExtensionValue.toTag, writeU16]
      rw [hm, extension_unmarshal_tag13, supportedSignatureAlgorithms_roundtrip e h]
      rfl
  | useSRTP e =>
      have hm : Extension.marshal (Extension.useSRTP e)
          = 0 :: 14 :: ExtensionUseSRTP.marshal e := by
        simp [Extension.marshal, Extension.extension_value, ExtensionValue.toTag, writeU16]
      rw [hm, extension_unmarshal_tag14, useSRTP_roundtrip e h]
      rfl
  | useExtendedMasterSecret e =>
      cases e with
      | mk s =>
          have hs : s = true := h
          subst hs
          rfl

/-- Witness for C1's amended round-trip at a concrete value. -/
theorem extension_roundtrip_witness :
    Extension.unmarshal (Extension.marshal (Extension.serverName ⟨[101]⟩))
      = (Except.ok (Extension.serverName ⟨[101]⟩), []) :=
  extension_roundtrip (Extension.serverName ⟨[101]⟩) ⟨by decide, by decide⟩

/-- Claim C2: for any 16-bit tag outside {0, 10, 11, 13, 14, 23},
`Extension::unmarshal` fails with `InvalidExtensionType`, leaving the reader
positioned exactly after the two tag bytes. -/
theorem unmarshal_unknown_tag (t1 t2 : Nat) (rest : Bytes)
    (h : t1 * 256 + t2 ∉ ([0, 10, 11, 13, 14, 23] : List Nat)) :
    Extension.unmarshal (t1 :: t2 :: rest)
      = (Except.error Err.invalidExtensionType, rest) := by
  simp only [List.mem_cons, List.not_mem_nil, or_false, not_or] at h
  obtain ⟨h0, h10, h11, h13, h14, h23⟩ := h
  rw [Extension.unmarshal]
  simp only [readU16]
  simp [ExtensionValue.fromU16, h0, h10, h11, h13, h14, h23]

/-- Witness for C2: the concrete scenario, bytes FF FF 00 00 — tag 0xFFFF is
rejected with `InvalidExtensionType` and only the 2 tag bytes are consumed. -/
theorem unmarshal_unknown_tag_witness :
    Extension.unmarshal [255, 255, 0, 0]
      = (Except.error Err.invalidExtensionType, [0, 0]) :=
  unmarshal_unknown_tag 255 255 [0, 0] (by decide)

/-- Claim C3: for each of the six known extension identities, converting to the
16-bit wire tag and mapping back through the registry yields the identity again. -/
theorem extensionValue_tag_fidelity :
    ExtensionValue.fromU16 ExtensionValue.serverName.toTag = ExtensionValue.serverName
    ∧ ExtensionValue.fromU16 ExtensionValue.supportedEllipticCurves.toTag
        = ExtensionValue.supportedEllipticCurves
    ∧ ExtensionValue.fromU16 ExtensionValue.supportedPointFormats.toTag
        = ExtensionValue.supportedPointFormats
    ∧ ExtensionValue.fromU16 ExtensionValue.supportedSignatureAlgorithms.toTag
        = ExtensionValue.supportedSignatureAlgorithms
    ∧ ExtensionValue.fromU16 ExtensionValue.useSRTP.toTag = ExtensionValue.useSRTP
    ∧ ExtensionValue.fromU16 ExtensionValue.useExtendedMasterSecret.toTag
        = ExtensionValue.useExtendedMasterSecret := by
  decide

/-- Claim C4: a ServerName body whose name bytes are not valid UTF-8 makes
`ExtensionServerName::unmarshal` fail with the encoding error; no value is
produced (the error constructor carries none). -/
theorem serverName_unmarshal_utf8_guard (name rest : Bytes)
    (hlen : name.length < 65536) (hbad : validUtf8 name = false) :
    ExtensionServerName.unmarshal (writeU16 name.length ++ name ++ rest)
      = (Except.error Err.invalidUtf8, rest) := by
  rw [List.append_assoc, serverName_unmarshal_append name rest hlen]
  simp [hbad]

/-- Witness for C4: the body 00 01 FF (length 1, the invalid byte 0xFF). -/
theorem serverName_unmarshal_utf8_guard_witness :
    ExtensionServerName.unmarshal [0, 1, 255] = (Except.error Err.invalidUtf8, []) :=
  serverName_unmarshal_utf8_guard [255] [] (by decide) (by decide)

/-- Claim C5: every successful decode of a UseExtendedMasterSecret body yields
`supported = true` (no wire input decodes to false), and the concrete bytes
00 17 00 00 decode through `Extension::unmarshal` to `{ supported: true }`,
consuming all 4 bytes. -/
theorem uems_presence_semantics :
    (∀ (s : Bytes) (ext : ExtensionUseExtendedMasterSecret) (r : Bytes),
        ExtensionUseExtendedMasterSecret.unmarshal s = (Except.ok ext, r) →
        ext.supported = true)
    ∧ Extension.unmarshal [0, 23, 0, 0]
        = (Except.ok (Extension.useExtendedMasterSecret ⟨true⟩), []) := by
  refine ⟨?_, rfl⟩
  intro s ext r h
  rw [ExtensionUseExtendedMasterSecret.unmarshal] at h
  rcases hs : readU16 s with ⟨out, s1⟩
  rw [hs] at h
  cases out with
  | ok v =>
      simp only [Prod.mk.injEq] at h
      obtain ⟨h1, -⟩ := h
      injection h1 with h2
      rw [← h2]
  | error e => simp at h

/-- Witness for C5's universally quantified part at the body 00 00. -/
theorem uems_presence_semantics_witness :
    ExtensionUseExtendedMasterSecret.unmarshal [0, 0] = (Except.ok ⟨true⟩, [])
    ∧ (⟨true⟩ : ExtensionUseExtendedMasterSecret).supported = true :=
  ⟨rfl, uems_presence_semantics.1 [0, 0] ⟨true⟩ [] rfl⟩

/-- Claim C6: marshalling ServerName "example.com" produces exactly
00 00 (tag) 00 0B (length 11) followed by the 11 ASCII bytes, and unmarshalling
those bytes reproduces the value, consuming everything. -/
theorem serverName_example_com :
    Extension.marshal
        (Extension.serverName ⟨[101, 120, 97, 109, 112, 108, 101, 46, 99, 111, 109]⟩)
      = [0, 0, 0, 11, 101, 120, 97, 109, 112, 108, 101, 46, 99, 111, 109]
    ∧ Extension.unmarshal [0, 0, 0, 11, 101, 120, 97, 109, 112, 108, 101, 46, 99, 111, 109]
      = (Except.ok
          (Extension.serverName ⟨[101, 120, 97, 109, 112, 108, 101, 46, 99, 111, 109]⟩),
         []) :=
  ⟨rfl, rfl⟩

/-- Claim C7, counterexample: with a nonzero length field the
UseExtendedMasterSecret codec does not consume length-many payload bytes — on
tag 23 with length field 5 followed by 5 payload bytes, the 5 payload bytes are
left unread (the claim as stated predicts an empty remainder). -/
theorem codec_length_consumption_counterexample :
    Extension.unmarshal [0, 23, 0, 5, 1, 2, 3, 4, 5]
      = (Except.ok (Extension.useExtendedMasterSecret ⟨true⟩), [1, 2, 3, 4, 5])
    ∧ ([1, 2, 3, 4, 5] : Bytes) ≠ [] :=
  ⟨rfl, by decide⟩

/-- Claim C7, amended: on each recognized tag `Extension::unmarshal` delegates to
the matching payload codec; the ServerName codec (and the length-prefixed codecs
modelled from the spec) consume exactly their 2 length bytes plus length-many
payload bytes, while the UseExtendedMasterSecret codec consumes exactly its 2
length bytes, ignoring the length value. -/
theorem codec_delegation_and_consumption :
    (∀ rest : Bytes, Extension.unmarshal (0 :: 0 :: rest)
        = ((ExtensionServerName.unmarshal rest).1.map Extension.serverName,
           (ExtensionServerName.unmarshal rest).2))
    ∧ (∀ rest : Bytes, Extension.unmarshal (0 :: 10 :: rest)
        = ((ExtensionSupportedEllipticCurves.unmarshal rest).1.map
             Extension.supportedEllipticCurves,
           (ExtensionSupportedEllipticCurves.unmarshal rest).2))
    ∧ (∀ rest : Bytes, Extension.unmarshal (0 :: 11 :: rest)
        = ((ExtensionSupportedPointFormats.unmarshal rest).1.map
             Extension.supportedPointFormats,
           (ExtensionSupportedPointFormats.unmarshal rest).2))
    ∧ (∀ rest : Bytes, Extension.unmarshal (0 :: 13 :: rest)
        = ((ExtensionSupportedSignatureAlgorithms.unmarshal rest).1.map
             Extension.supportedSignatureAlgorithms,
           (ExtensionSupportedSignatureAlgorithms.unmarshal rest).2))
    ∧ (∀ rest : Bytes, Extension.unmarshal (0 :: 14 :: rest)
        = ((ExtensionUseSRTP.unmarshal rest).1.map Extension.useSRTP,
           (ExtensionUseSRTP.unmarshal rest).2))
    ∧ (∀ rest : Bytes, Extension.unmarshal (0 :: 23 :: rest)
        = ((ExtensionUseExtendedMasterSecret.unmarshal rest).1.map
             Extension.useExtendedMasterSecret,
           (ExtensionUseExtendedMasterSecret.unmarshal rest).2))
    ∧ (∀ name rest : Bytes, name.length < 65536 → validUtf8 name = true →
        ExtensionServerName.unmarshal (writeU16 name.length ++ (name ++ rest))
          = (Except.ok ⟨name⟩, rest))
    ∧ (∀ data rest : Bytes, data.length < 65536 →
        lenPrefixedUnmarshal (writeU16 data.length ++ (data ++ rest))
          = (Except.ok data, rest))
    ∧ (∀ (a b : Nat) (rest : Bytes),
        ExtensionUseExtendedMasterSecret.unmarshal (a :: b :: rest)
          = (Except.ok ⟨true⟩, rest)) := by
  refine ⟨extension_unmarshal_tag0, extension_unmarshal_tag10, extension_unmarshal_tag11,
    extension_unmarshal_tag13, extension_unmarshal_tag14, extension_unmarshal_tag23,
    ?_, lenPrefixed_unmarshal_append, uems_unmarshal_cons⟩
  intro name rest h1 h2
  rw [serverName_unmarshal_append name rest h1, if_pos h2]

/-- Witness for C7's consumption statements at concrete inputs. -/
theorem codec_delegation_and_consumption_witness :
    ExtensionServerName.unmarshal [0, 1, 97, 5] = (Except.ok ⟨[97]⟩, [5])
      ∧ ExtensionUseExtendedMasterSecret.unmarshal [0, 9, 7] = (Except.ok ⟨true⟩, [7]) := by
  constructor
  · have h := codec_delegation_and_consumption.2.2.2.2.2.2.1 [97] [5] (by decide) (by decide)
    simpa [writeU16] using h
  · exact codec_delegation_and_consumption.2.2.2.2.2.2.2.2 0 9 [7]

/-- Claim C8: the registry lookup is a total function on tag values with no
failure mode — each of the six known tags maps to its identity and every other
value maps to `Unsupported`. -/
theorem registry_total :
    ExtensionValue.fromU16 0 = ExtensionValue.serverName
    ∧ ExtensionValue.fromU16 10 = ExtensionValue.supportedEllipticCurves
    ∧ ExtensionValue.fromU16 11 = ExtensionValue.supportedPointFormats
    ∧ ExtensionValue.fromU16 13 = ExtensionValue.supportedSignatureAlgorithms
    ∧ ExtensionValue.fromU16 14 = ExtensionValue.useSRTP
    ∧ ExtensionValue.fromU16 23 = ExtensionValue.useExtendedMasterSecret
    ∧ (∀ val : Nat, val ∉ ([0, 10, 11, 13, 14, 23] : List Nat) →
        ExtensionValue.fromU16 val = ExtensionValue.unsupported) := by
  refine ⟨rfl, rfl, rfl, rfl, rfl, rfl, ?_⟩
  intro val h
  simp only [List.mem_cons, List.not_mem_nil, or_false, not_or] at h
  obtain ⟨h0, h10, h11, h13, h14, h23⟩ := h
  simp [ExtensionValue.fromU16, h0, h10, h11, h13, h14, h23]

/-- Witness for C8's catch-all clause at the unknown tag 9999. -/
theorem registry_total_witness :
    ExtensionValue.fromU16 9999 = ExtensionValue.unsupported :=
  registry_total.2.2.2.2.2.2 9999 (by decide)

/-- Claim C9: for a server name longer than 65535 bytes, marshalling still
succeeds, writing a 2-byte length field holding the byte-length reduced mod 2^16
(the `as u16` cast) followed by all of the name bytes, so the length prefix does
not match the number of bytes that follow. -/
theorem serverName_marshal_truncation (name : Bytes) (h : 65535 < name.length) :
    ExtensionServerName.marshal ⟨name⟩ = writeU16 (name.length % 65536) ++ name
    ∧ (writeU16 (name.length % 65536)).length = 2
    ∧ name.length % 65536 ≠ name.length := by
  refine ⟨rfl, rfl, ?_⟩
  have : name.length % 65536 < 65536 := Nat.mod_lt _ (by omega)
  omega

/-- Witness for C9 at a 65536-byte name (length field truncates to 0). -/
theorem serverName_marshal_truncation_witness :
    65535 < (List.replicate 65536 0).length
    ∧ (ExtensionServerName.marshal ⟨List.replicate 65536 0⟩
         = writeU16 ((List.replicate 65536 0).length % 65536) ++ List.replicate 65536 0
       ∧ (writeU16 ((List.replicate 65536 0).length % 65536)).length = 2
       ∧ (List.replicate 65536 0).length % 65536 ≠ (List.replicate 65536 0).length) :=
  ⟨by norm_num [List.length_replicate],
   serverName_marshal_truncation (List.replicate 65536 0) (by norm_num [List.length_replicate])⟩

/-- Claim C10: the UseExtendedMasterSecret codec succeeds on every 2-byte length
field, consuming exactly the 2 length bytes (any payload is left unread) and
returning `supported = true`; it fails (with the short-read error) only when
fewer than 2 bytes are available. -/
theorem uems_unmarshal_total :
    (∀ (a b : Nat) (rest : Bytes),
        ExtensionUseExtendedMasterSecret.unmarshal (a :: b :: rest)
          = (Except.ok ⟨true⟩, rest))
    ∧ (∀ s : Bytes, s.length < 2 →
        (ExtensionUseExtendedMasterSecret.unmarshal s).1 = Except.error Err.shortRead) := by
  refine ⟨uems_unmarshal_cons, ?_⟩
  intro s h
  rcases s with _ | ⟨a, s⟩
  · rfl
  · rcases s with _ | ⟨b, s⟩
    · rfl
    · simp at h
      omega

/-- Witness for C10 at a nonzero length field and at a 1-byte stream. -/
theorem uems_unmarshal_total_witness :
    ExtensionUseExtendedMasterSecret.unmarshal [0, 5, 9] = (Except.ok ⟨true⟩, [9])
    ∧ (ExtensionUseExtendedMasterSecret.unmarshal [0]).1 = Except.error Err.shortRead :=
  ⟨uems_unmarshal_total.1 0 5 [9], uems_unmarshal_total.2 [0] (by decide)⟩
